import Mathlib

/-!
Verification development for the webhook-tunnel manager
(`webhook_tunnel/manager.py` and `webhook_tunnel/proxy.py`), shallowly
embedded in Lean 4.  Byte streams are `List Nat`, registries are
association lists, OS interactions (port probes, process spawns,
subprocess output) are supplied by explicit environment records, and
every fallible operation returns an `Except` together with the state and
the list of externally visible events it performed.
-/

namespace WebhookTunnel

set_option maxRecDepth 100000

/-! ## Generic prefix machinery for byte streams -/

/-- `startsWithL p l` is true when `p` is a prefix of `l`. -/
def startsWithL {α : Type} [DecidableEq α] : List α → List α → Bool
  | [], _ => true
  | _ :: _, [] => false
  | p :: ps, x :: xs => if p = x then startsWithL ps xs else false

theorem startsWithL_length {α : Type} [DecidableEq α] :
    ∀ (p l : List α), startsWithL p l = true → p.length ≤ l.length := by
  intro p
  induction p with
  | nil => intro l _; simp
  | cons c ps ih =>
    intro l h
    cases l with
    | nil => simp [startsWithL] at h
    | cons x xs =>
      simp only [startsWithL] at h
      split at h
      · have := ih xs h
        simp only [List.length_cons]
        omega
      · exact absurd h (by simp)

theorem startsWithL_join {α : Type} [DecidableEq α] :
    ∀ (p l : List α), startsWithL p l = true → p ++ l.drop p.length = l := by
  intro p
  induction p with
  | nil => intro l _; simp
  | cons c ps ih =>
    intro l h
    cases l with
    | nil => simp [startsWithL] at h
    | cons x xs =>
      simp only [startsWithL] at h
      split at h
      · rename_i heq
        subst heq
        simp only [List.cons_append, List.length_cons, List.drop_succ_cons, List.cons.injEq,
          true_and]
        exact ih xs h
      · exact absurd h (by simp)

theorem startsWithL_append {α : Type} [DecidableEq α] :
    ∀ (p l ys : List α), startsWithL p l = true → startsWithL p (l ++ ys) = true := by
  intro p
  induction p with
  | nil => intro l ys _; rfl
  | cons c ps ih =>
    intro l ys h
    cases l with
    | nil => simp [startsWithL] at h
    | cons x xs =>
      simp only [List.cons_append, startsWithL] at h ⊢
      split at h
      · rename_i heq
        rw [if_pos heq]
        exact ih xs ys h
      · exact absurd h (by simp)

theorem startsWithL_of_append {α : Type} [DecidableEq α] :
    ∀ (p l ys : List α), p.length ≤ l.length → startsWithL p (l ++ ys) = true →
      startsWithL p l = true := by
  intro p
  induction p with
  | nil => intro l ys _ _; simp [startsWithL]
  | cons c ps ih =>
    intro l ys hlen h
    cases l with
    | nil => simp at hlen
    | cons x xs =>
      simp only [List.cons_append, startsWithL] at h ⊢
      split at h
      · rename_i heq
        rw [if_pos heq]
        exact ih xs ys (by simpa using hlen) h
      · exact absurd h (by simp)

theorem drop_append_le {α : Type} :
    ∀ (n : Nat) (l ys : List α), n ≤ l.length → (l ++ ys).drop n = l.drop n ++ ys := by
  intro n
  induction n with
  | zero => intro l ys _; simp
  | succ m ih =>
    intro l ys hlen
    cases l with
    | nil => simp at hlen
    | cons x xs =>
      simp only [List.cons_append, List.drop_succ_cons]
      exact ih xs ys (by simpa using hlen)

/-! ## Proxy: peek-and-relay model (`webhook_tunnel/proxy.py`) -/

/-- The header terminator `\r\n\r\n` as bytes. -/
def termBytes : List Nat := [13, 10, 13, 10]

/-- Split a list around the first occurrence of `term`: `some (b, a)`
where `b ++ term ++ a` is the input and `b` contains no occurrence, or
`none` when `term` does not occur.  Models the positioning used by both
Python's `str.find` (in `_try_parse_http_request`) and
`asyncio.StreamReader.readuntil` (in `handle_client`). -/
def splitTerm4 (term : List Nat) : List Nat → Option (List Nat × List Nat)
  | [] => none
  | c :: rest =>
    if startsWithL term (c :: rest) then some ([], (c :: rest).drop term.length)
    else (splitTerm4 term rest).map (fun pr => (c :: pr.1, pr.2))

theorem splitTerm4_length_le (term : List Nat) :
    ∀ (l : List Nat) (pr : List Nat × List Nat),
      splitTerm4 term l = some pr → term.length ≤ l.length := by
  intro l
  induction l with
  | nil => intro pr h; simp [splitTerm4] at h
  | cons c rest ih =>
    intro pr h
    simp only [splitTerm4] at h
    split at h
    · rename_i hpre
      exact startsWithL_length term (c :: rest) hpre
    · cases hrec : splitTerm4 term rest with
      | none => rw [hrec] at h; simp at h
      | some pr2 =>
        have := ih pr2 hrec
        simp only [List.length_cons]
        omega

theorem splitTerm4_join (term : List Nat) :
    ∀ (l b a : List Nat), splitTerm4 term l = some (b, a) → b ++ term ++ a = l := by
  intro l
  induction l with
  | nil => intro b a h; simp [splitTerm4] at h
  | cons c rest ih =>
    intro b a h
    simp only [splitTerm4] at h
    split at h
    · rename_i hpre
      simp only [Option.some.injEq, Prod.mk.injEq] at h
      obtain ⟨hb, ha⟩ := h
      rw [← hb, ← ha, List.nil_append]
      exact startsWithL_join term (c :: rest) hpre
    · cases hrec : splitTerm4 term rest with
      | none => rw [hrec] at h; simp at h
      | some pr2 =>
        rw [hrec] at h
        obtain ⟨b2, a2⟩ := pr2
        simp only [Option.map, Option.some.injEq, Prod.mk.injEq] at h
        obtain ⟨hb, ha⟩ := h
        have hj := ih b2 a2 hrec
        rw [← hb, ← ha]
        simp only [List.cons_append]
        rw [hj]

theorem splitTerm4_append (term : List Nat) :
    ∀ (xs ys b a : List Nat), splitTerm4 term xs = some (b, a) →
      splitTerm4 term (xs ++ ys) = some (b, a ++ ys) := by
  intro xs
  induction xs with
  | nil => intro ys b a h; simp [splitTerm4] at h
  | cons c rest ih =>
    intro ys b a h
    simp only [splitTerm4] at h
    by_cases hpre : startsWithL term (c :: rest) = true
    · rw [if_pos hpre] at h
      simp only [Option.some.injEq, Prod.mk.injEq] at h
      obtain ⟨hb, ha⟩ := h
      have hlen : term.length ≤ (c :: rest).length := startsWithL_length term _ hpre
      have hpre2 : startsWithL term ((c :: rest) ++ ys) = true :=
        startsWithL_append term _ ys hpre
      simp only [List.cons_append] at hpre2 ⊢
      rw [splitTerm4, if_pos hpre2]
      have hdrop : ((c :: rest) ++ ys).drop term.length = (c :: rest).drop term.length ++ ys :=
        drop_append_le term.length _ ys hlen
      simp only [List.cons_append] at hdrop
      rw [hdrop, ← hb, ← ha]
    · rw [if_neg hpre] at h
      cases hrec : splitTerm4 term rest with
      | none => rw [hrec] at h; simp at h
      | some pr2 =>
        rw [hrec] at h
        obtain ⟨b2, a2⟩ := pr2
        simp only [Option.map, Option.some.injEq, Prod.mk.injEq] at h
        obtain ⟨hb, ha⟩ := h
        have hlen : term.length ≤ rest.length := splitTerm4_length_le term rest _ hrec
        have hpre2 : ¬ startsWithL term ((c :: rest) ++ ys) = true := by
          intro hcon
          exact hpre (startsWithL_of_append term (c :: rest) ys
            (by simp only [List.length_cons]; omega) hcon)
        simp only [List.cons_append]
        rw [splitTerm4, if_neg (by simpa using hpre2)]
        rw [ih ys b2 a2 hrec]
        simp only [Option.map, Option.some.injEq, Prod.mk.injEq]
        exact ⟨hb, by rw [ha]⟩

/-- Recognized HTTP methods (`HTTP_METHODS` in `proxy.py`). -/
def httpMethods : List String := ["GET", "POST", "PUT", "PATCH", "DELETE", "HEAD", "OPTIONS"]

/-- Python-style whitespace test (the characters `str.split()` /
`str.strip()` treat as whitespace). -/
def isSpaceChar (c : Char) : Bool :=
  c == ' ' || c == '\t' || c == '\n' || c == '\x0d' || c == '\x0b' || c == '\x0c'

/-- `s.strip()`: remove whitespace from both ends. -/
def trimL (cs : List Char) : List Char :=
  ((cs.dropWhile isSpaceChar).reverse.dropWhile isSpaceChar).reverse

/-- `endsWithL suffix l` is true when `l` ends with `suffix`. -/
def endsWithL {α : Type} [DecidableEq α] (suffix l : List α) : Bool :=
  startsWithL suffix.reverse l.reverse

/-- `s.split(sep)` for a single-character separator: splits at every
occurrence, keeping empty pieces. -/
def splitChar (sep : Char) : List Char → List (List Char)
  | [] => [[]]
  | c :: rest =>
    if c = sep then [] :: splitChar sep rest
    else
      match splitChar sep rest with
      | [] => [[c]]
      | l :: ls => (c :: l) :: ls

/-- `s.split("\r\n")`: splits at every (non-overlapping, leftmost)
occurrence of the two-character separator, keeping empty pieces. -/
def splitCrlf : List Char → List (List Char)
  | [] => [[]]
  | '\x0d' :: '\n' :: rest => [] :: splitCrlf rest
  | c :: rest =>
    match splitCrlf rest with
    | [] => [[c]]
    | l :: ls => (c :: l) :: ls

/-- ASCII uppercasing of one character (`str.upper()` restricted to the
ASCII range, which is all the method tokens can meaningfully hit). -/
def upChar (c : Char) : Char :=
  if 97 ≤ c.toNat ∧ c.toNat ≤ 122 then Char.ofNat (c.toNat - 32) else c

/-- ASCII lowercasing of one character (`str.lower()`, ASCII range). -/
def downChar (c : Char) : Char :=
  if 65 ≤ c.toNat ∧ c.toNat ≤ 90 then Char.ofNat (c.toNat + 32) else c

/-- Everything after the first colon of a line (`ln.split(":", 1)[1]`). -/
def afterFirstColon (cs : List Char) : List Char := (cs.dropWhile (fun c => c ≠ ':')).drop 1

/-- First `Host:` header value among the lines after the request line
(the loop over `lines[1:]` in `_try_parse_http_request`):
`ln.lower().startswith("host:")`, then `ln.split(":", 1)[1].strip()`. -/
def findHost : List (List Char) → String
  | [] => ""
  | ln :: rest =>
    if startsWithL "host:".data (ln.map downChar) then
      String.mk (trimL (afterFirstColon ln))
    else findHost rest

/-- `_try_parse_http_request(head)`: `some (method, path, host)` when the
peeked bytes look like an HTTP request, `none` otherwise.  The latin-1
decode maps each byte to the code point of the same value. -/
def tryParseHttpRequest (head : List Nat) : Option (String × String × String) :=
  match splitTerm4 termBytes head with
  | none => none
  | some (hdr, _) =>
    let headerChars := hdr.map Char.ofNat
    match splitCrlf headerChars with
    | [] => none
    | first :: restLines =>
      match splitChar ' ' first with
      | m :: p :: proto :: _ =>
        let method := String.mk (m.map upChar)
        if httpMethods.contains method then
          if startsWithL "HTTP/".data proto then
            some (method, String.mk p, findHost restLines)
          else none
        else none
      | _ => none

/-- Outcome of the bounded `readuntil(b"\r\n\r\n")` peek in
`handle_client`: success, EOF before a terminator
(`IncompleteReadError`, keeping the partial bytes), buffer-limit
overrun (`LimitOverrunError`, peeked bytes dropped back to the buffer),
or the peek timeout (`TimeoutError`). -/
inductive PeekCase
  | peekOk
  | eofNoTerm
  | overrun
  | timedOut
deriving DecidableEq, Repr

/-- Which peek outcomes are possible for a given client byte stream:
`readuntil` succeeds only when the terminator occurs, and EOF-without-
terminator only when it does not. -/
def validPeek (bs : List Nat) : PeekCase → Bool
  | .peekOk => (splitTerm4 termBytes bs).isSome
  | .eofNoTerm => (splitTerm4 termBytes bs).isNone
  | .overrun => true
  | .timedOut => true

/-- The bytes held in `initial` after the peek in `handle_client`. -/
def peekInitial (bs : List Nat) : PeekCase → List Nat
  | .peekOk =>
    match splitTerm4 termBytes bs with
    | some (b, _) => b ++ termBytes
    | none => []
  | .eofNoTerm => bs
  | .overrun => []
  | .timedOut => []

/-- The client bytes still unconsumed after the peek (delivered later by
`_pipe`): on success the bytes after the terminator; on EOF nothing
remains; on overrun/timeout the stream buffer still holds everything. -/
def peekRest (bs : List Nat) : PeekCase → List Nat
  | .peekOk =>
    match splitTerm4 termBytes bs with
    | some (_, a) => a
    | none => bs
  | .eofNoTerm => []
  | .overrun => bs
  | .timedOut => bs

/-- `_pipe`: reads chunks until EOF (an empty read) and writes each one
through unchanged. -/
def pipeDelivered : List (List Nat) → List Nat
  | [] => []
  | c :: rest => if c = [] then [] else c ++ pipeDelivered rest

/-- Total bytes written to the upstream side for one connection: the
peeked prefix is replayed first, then `_pipe` relays the rest. -/
def forwardedToTarget (bs : List Nat) (pc : PeekCase) (chunks : List (List Nat)) : List Nat :=
  peekInitial bs pc ++ pipeDelivered chunks

/-- Entries the proxy writes to its log for one connection. -/
inductive LogEntry
  | connAccepted
  | httpLine (method path host : String)
  | upstreamFailed
  | connClosed
deriving DecidableEq, Repr

/-- The log entries produced by `handle_client` for one connection whose
client bytes are `bs` and whose peek resolved as `pc`. -/
def connLogLines (bs : List Nat) (pc : PeekCase) (upstreamOk : Bool) : List LogEntry :=
  let initial := peekInitial bs pc
  let req := if initial.isEmpty then none else tryParseHttpRequest initial
  [.connAccepted]
    ++ (match req with
        | some (m, p, h) => [.httpLine m p (if h = "" then "-" else h)]
        | none => [])
    ++ (if upstreamOk then [.connClosed] else [.upstreamFailed])

theorem pipeDelivered_join :
    ∀ chunks : List (List Nat), chunks.all (fun c => !c.isEmpty) = true →
      pipeDelivered chunks = chunks.flatten := by
  intro chunks
  induction chunks with
  | nil => intro _; rfl
  | cons c rest ih =>
    intro h
    simp only [List.all_cons, Bool.and_eq_true, Bool.not_eq_true'] at h
    obtain ⟨hc, hrest⟩ := h
    have hcne : c ≠ [] := by
      intro hn; rw [hn] at hc; simp at hc
    simp only [pipeDelivered, if_neg hcne, List.flatten]
    rw [ih (by simpa using hrest)]

/-! ## Manager: data model (`webhook_tunnel/manager.py`) -/

/-- One persisted tunnel record (the `tunnel_info` dict in `create_tunnel`). -/
structure TunnelRecord where
  name : String
  local_port : Nat
  public_port : Nat
  subdomain : String
  domain : String
  public_url : String
  local_url : String
  public_host : String
  curl_resolve_example : String
  created_at : String
  status : String
  pid : Option Nat
  public_provider : Option String
  public_url_external : Option String
  public_pid : Option Nat
  requests_count : Nat
  last_request : Option String
deriving DecidableEq, Repr

/-- The part of `config.json` the manager operations read. -/
structure GlobalConfig where
  domain : Option String
deriving DecidableEq, Repr

/-- Manager state: the tunnel registry (keyed association list, the
in-memory mirror of `tunnels.json`) plus the loaded configuration. -/
structure MState where
  tunnels : List (String × TunnelRecord)
  config : GlobalConfig
deriving DecidableEq, Repr

/-- Errors raised by manager operations. -/
inductive MError
  | duplicateName
  | localServiceNotRunning
  | noPortAvailable
  | proxyStartFailed
  | npxNotFound
  | ltStartFailed
  | ltUrlTimeout
  | notFound
deriving DecidableEq, Repr

/-- Externally visible side effects of a manager operation. -/
inductive MEvent
  | spawnProxy
  | spawnPublic
  | termPublic
  | termProxy
  | saveTunnelsFile
  | saveConfigFile
deriving DecidableEq, Repr

instance {ε α : Type} [DecidableEq ε] [DecidableEq α] : DecidableEq (Except ε α) := fun a b =>
  match a, b with
  | .error e1, .error e2 =>
    if h : e1 = e2 then isTrue (by rw [h]) else isFalse (fun hc => h (by injection hc))
  | .error _, .ok _ => isFalse (fun hc => Except.noConfusion hc)
  | .ok _, .error _ => isFalse (fun hc => Except.noConfusion hc)
  | .ok v1, .ok v2 =>
    if h : v1 = v2 then isTrue (by rw [h]) else isFalse (fun hc => h (by injection hc))

/-- One `readline` result inside the `start_public_localtunnel` polling
loop; the end of the list stands for the 20-second window expiring. -/
inductive LtRead
  | procExited
  | noLine
  | outLine (s : String)

/-- Environment oracle for one manager operation: the loopback port
probe (`connect_ex` succeeding means the port is in use), whether the
spawned proxy survives its grace period, the pids the OS hands out, npx
availability, and the localtunnel child's output. -/
structure Env where
  portInUse : Nat → Bool
  proxyOk : Bool
  proxyPid : Nat
  npxAvailable : Bool
  ltReads : List LtRead
  publicPid : Nat
  now : String

/-- Python truthiness for an optional int (`if not public_port`). -/
def pyTruthyNat : Option Nat → Bool
  | none => false
  | some n => !(n == 0)

/-- Python truthiness for an optional string (`if not subdomain`). -/
def pyTruthyStr : Option String → Bool
  | none => false
  | some s => !(s == "")

/-- `name in self.tunnels` / `self.tunnels.get(name)`. -/
def lookupT (ts : List (String × TunnelRecord)) (n : String) : Option TunnelRecord :=
  match ts.find? (fun kv => kv.1 == n) with
  | some kv => some kv.2
  | none => none

/-- `find_available_port`: first port in `range(8000, 9000)` that is
free on loopback and not already reserved by a live record. -/
def findAvailablePort (env : Env) (ts : List (String × TunnelRecord)) : Option Nat :=
  (List.range' 8000 1000).find?
    (fun p => !env.portInUse p && ts.all (fun kv => !(kv.2.public_port == p)))

/-- Result of the localtunnel URL-scanning loop. -/
structure LtRunResult where
  out : Except MError (Nat × String)
  terminated : Bool
  logged : List String
deriving Repr

/-- `(https?://[^\s]+)` matched at the head of `cs`: the scheme followed
by a nonempty run of non-whitespace characters. -/
def urlAt (cs : List Char) : Option (List Char) :=
  if startsWithL "http://".data cs then
    let run := (cs.drop 7).takeWhile (fun c => !isSpaceChar c)
    if run = [] then none else some ("http://".data ++ run)
  else if startsWithL "https://".data cs then
    let run := (cs.drop 8).takeWhile (fun c => !isSpaceChar c)
    if run = [] then none else some ("https://".data ++ run)
  else none

/-- `url_re.search(line)`: the first URL occurring in the line. -/
def findUrl : List Char → Option String
  | [] => none
  | c :: rest =>
    match urlAt (c :: rest) with
    | some u => some (String.mk u)
    | none => findUrl rest

/-- The polling loop of `start_public_localtunnel`: each `readline`
result is consumed in order; a line is appended to the log, then
scanned for a URL.  A child exit raises the start failure *inside* the
`try` block (so the `except` handler terminates the child); running out
of reads means the 20-second window expired, and the timeout error is
raised *after* the `try` block, with no terminate call. -/
def runLt (pid : Nat) : List LtRead → List String → LtRunResult
  | [], log => ⟨.error .ltUrlTimeout, false, log⟩
  | .procExited :: _, log => ⟨.error .ltStartFailed, true, log⟩
  | .noLine :: rest, log => runLt pid rest log
  | .outLine s :: rest, log =>
    match findUrl s.data with
    | some u => ⟨.ok (pid, u), false, log ++ [s]⟩
    | none => runLt pid rest (log ++ [s])

/-- `start_public_localtunnel`: requires npx, spawns the child, then
runs the URL-scanning loop. -/
def startPublicLocaltunnel (env : Env) : Except MError (Nat × String) × List MEvent :=
  if env.npxAvailable then
    let r := runLt env.publicPid env.ltReads []
    (r.out, [MEvent.spawnPublic] ++ (if r.terminated then [MEvent.termPublic] else []))
  else (.error .npxNotFound, [])

/-- Result of a `create_tunnel` call: outcome, resulting state, events. -/
structure CreateResult where
  out : Except MError TunnelRecord
  state : MState
  events : List MEvent
deriving DecidableEq, Repr

/-- `create_tunnel(name, local_port, subdomain, public_port, public_provider)`. -/
def createTunnel (env : Env) (s : MState) (name : String) (localPort : Nat)
    (subdomainOpt : Option String) (publicPortOpt : Option Nat)
    (providerOpt : Option String) : CreateResult :=
  if (lookupT s.tunnels name).isSome then ⟨.error .duplicateName, s, []⟩
  else if !env.portInUse localPort then ⟨.error .localServiceNotRunning, s, []⟩
  else
    let subdomain := if pyTruthyStr subdomainOpt then subdomainOpt.getD name else name
    let portChoice := if pyTruthyNat publicPortOpt then publicPortOpt
                      else findAvailablePort env s.tunnels
    match portChoice with
    | none => ⟨.error .noPortAvailable, s, []⟩
    | some publicPort =>
      let domainVal := s.config.domain.getD "localhost"
      let publicHost := if domainVal == "" then subdomain else subdomain ++ "." ++ domainVal
      let publicUrl := "http://" ++ publicHost ++ ":" ++ toString publicPort
      let rec0 : TunnelRecord := {
        name := name, local_port := localPort, public_port := publicPort,
        subdomain := subdomain, domain := domainVal,
        public_url := publicUrl,
        local_url := "http://127.0.0.1:" ++ toString publicPort,
        public_host := publicHost,
        curl_resolve_example :=
          "curl --resolve " ++ publicHost ++ ":" ++ toString publicPort ++ ":127.0.0.1 "
            ++ publicUrl,
        created_at := env.now, status := "active", pid := none,
        public_provider := none, public_url_external := none, public_pid := none,
        requests_count := 0, last_request := none }
      if !env.proxyOk then ⟨.error .proxyStartFailed, s, [MEvent.spawnProxy]⟩
      else
        let rec1 := { rec0 with pid := some env.proxyPid }
        match providerOpt with
        | none =>
          ⟨.ok rec1, { s with tunnels := (name, rec1) :: s.tunnels },
            [MEvent.spawnProxy, MEvent.saveTunnelsFile]⟩
        | some _ =>
          match startPublicLocaltunnel env with
          | (.error e, evs) => ⟨.error e, s, [MEvent.spawnProxy] ++ evs⟩
          | (.ok (pubPid, pubUrl), evs) =>
            let rec2 := { rec1 with
              public_provider := some "localtunnel",
              public_pid := some pubPid,
              public_url_external := some pubUrl }
            ⟨.ok rec2, { s with tunnels := (name, rec2) :: s.tunnels },
              [MEvent.spawnProxy] ++ evs ++ [MEvent.saveTunnelsFile]⟩

/-- Result of `stop_tunnel`. -/
structure StopResult where
  out : Except MError Unit
  state : MState
  events : List MEvent
deriving DecidableEq, Repr

/-- `stop_tunnel(name)`: terminate the public child then the proxy
child (already-dead is success), delete the record, persist. -/
def stopTunnel (s : MState) (name : String) : StopResult :=
  match lookupT s.tunnels name with
  | none => ⟨.error .notFound, s, []⟩
  | some t =>
    let evs := (if pyTruthyNat t.public_pid then [MEvent.termPublic] else [])
            ++ (if pyTruthyNat t.pid then [MEvent.termProxy] else [])
    ⟨.ok (), { s with tunnels := s.tunnels.filter (fun kv => !(kv.1 == name)) },
      evs ++ [MEvent.saveTunnelsFile]⟩

/-- `restart_tunnel(name)`: read the previous record's parameters, stop,
then create with them again. -/
def restartTunnel (env : Env) (s : MState) (name : String) : CreateResult :=
  match lookupT s.tunnels name with
  | none => ⟨.error .notFound, s, []⟩
  | some t =>
    let r1 := stopTunnel s name
    let r2 := createTunnel env r1.state name t.local_port (some t.subdomain)
      (some t.public_port) t.public_provider
    ⟨r2.out, r2.state, r1.events ++ r2.events⟩

/-- Spec-side composition for the restart claim: `stop(name)` followed
by `create` using the previous record's `local_port`, `subdomain`,
`public_port` and `public_provider` (the record is read before the stop
deletes it). -/
def stopThenCreate (env : Env) (s : MState) (name : String) : CreateResult :=
  let prev := lookupT s.tunnels name
  match stopTunnel s name with
  | ⟨.error e, s1, ev1⟩ => ⟨.error e, s1, ev1⟩
  | ⟨.ok _, s1, ev1⟩ =>
    match prev with
    | none => ⟨.error .notFound, s1, ev1⟩
    | some t =>
      let r2 := createTunnel env s1 name t.local_port (some t.subdomain)
        (some t.public_port) t.public_provider
      ⟨r2.out, r2.state, ev1 ++ r2.events⟩

/-- A create request with the public port left to default allocation. -/
structure CreateReq where
  name : String
  localPort : Nat
  subdomainOpt : Option String
  providerOpt : Option String

/-- A sequence of `create` calls, each with `public_port=None`. -/
def runCreates (env : Env) : MState → List CreateReq → MState
  | s, [] => s
  | s, r :: rest =>
    runCreates env (createTunnel env s r.name r.localPort r.subdomainOpt none r.providerOpt).state
      rest

/-- Pairwise distinctness of `public_port` among live records. -/
def distinctPorts (ts : List (String × TunnelRecord)) : Prop :=
  ts.Pairwise (fun a b => a.2.public_port ≠ b.2.public_port)

/-! ## Runtime bootstrapper (`install_portable_node_lts`) -/

/-- Operating-system identifier as used by Node.js distributions. -/
inductive NodeOs
  | linux
  | darwin
  | win
deriving DecidableEq, Repr

/-- Inputs and environment of one `install_portable_node_lts` run: the
detected platform, the version index lookup, the downloaded checksum
manifest, the content hash computed over the downloaded archive, and
the state of the install directory. -/
structure NodeEnv where
  osId : NodeOs
  archId : String
  ltsVersion : Option String
  manifestLines : List String
  archiveHash : String
  alreadyExtracted : Bool
  npxPresentAfterExtract : Bool

inductive InstallError
  | noLtsFound
  | checksumMismatch
  | npxMissingAfterInstall
deriving DecidableEq, Repr

inductive InstallEvent
  | downloadShasums
  | downloadArchive
  | extractArchive
  | persistConfig
deriving DecidableEq, Repr

/-- The `bundled_node` entry written into `config.json`. -/
structure BundledNode where
  version : String
  osStr : String
  arch : String
  root : String
  npx_path : String
deriving DecidableEq, Repr

/-- Result of `install_portable_node_lts`: outcome (npx path on
success), events performed, and the `bundled_node` config entry (if
persisted). -/
structure InstallResult where
  out : Except InstallError String
  events : List InstallEvent
  bundled : Option BundledNode
deriving DecidableEq, Repr

def osStrOf : NodeOs → String
  | .linux => "linux"
  | .darwin => "darwin"
  | .win => "win"

/-- `node-{version}-{os_id}-{arch_id}`. -/
def nodeBase (env : NodeEnv) (version : String) : String :=
  "node-" ++ version ++ "-" ++ osStrOf env.osId ++ "-" ++ env.archId

/-- The archive filename: `.zip` on Windows, `.tar.xz` elsewhere. -/
def nodeFilename (env : NodeEnv) (version : String) : String :=
  if env.osId = .win then nodeBase env version ++ ".zip" else nodeBase env version ++ ".tar.xz"

/-- `line.split()[0]`: first whitespace-separated token of a line. -/
def firstToken (ln : String) : String :=
  String.mk ((ln.data.dropWhile isSpaceChar).takeWhile (fun c => !isSpaceChar c))

/-- The manifest scan: the first line whose stripped form ends with the
archive filename yields the expected hash (its first token). -/
def lookupShasum (lines : List String) (filename : String) : Option String :=
  match lines.find? (fun ln => endsWithL filename.data (trimL ln.data)) with
  | some ln => some (firstToken ln)
  | none => none

/-- `install_portable_node_lts`: resolve the LTS version, download the
manifest and archive, verify the hash only when a matching manifest
line was found, extract (skipped when already present), locate npx, and
persist the `bundled_node` config entry. -/
def installPortableNodeLts (env : NodeEnv) : InstallResult :=
  match env.ltsVersion with
  | none => ⟨.error .noLtsFound, [], none⟩
  | some version =>
    let filename := nodeFilename env version
    let evs0 := [InstallEvent.downloadShasums, InstallEvent.downloadArchive]
    let expected := lookupShasum env.manifestLines filename
    let mismatch := match expected with
      | some e => !(e == "") && !(env.archiveHash == e)
      | none => false
    if mismatch then ⟨.error .checksumMismatch, evs0, none⟩
    else
      let evs1 := evs0 ++ (if env.alreadyExtracted then [] else [InstallEvent.extractArchive])
      let extractDir := nodeBase env version
      let npxPath := if env.osId = .win then extractDir ++ "/npx.cmd"
                     else extractDir ++ "/bin/npx"
      if !env.npxPresentAfterExtract then ⟨.error .npxMissingAfterInstall, evs1, none⟩
      else
        ⟨.ok npxPath, evs1 ++ [InstallEvent.persistConfig],
          some ⟨version, osStrOf env.osId, env.archId, extractDir, npxPath⟩⟩

/-! ## Persisted-state loading (`load_json`, `load_tunnels`, `__init__`) -/

/-- The observable state of a JSON file on disk: absent, present but
not valid JSON, or present with parsed content `d`. -/
inductive JsonFile (α : Type)
  | missing
  | invalidContent
  | validContent (d : α)
deriving DecidableEq, Repr

/-- `load_json(filepath)`: returns the parsed content, or the empty
mapping on `FileNotFoundError` / `JSONDecodeError`. -/
def load_json {α : Type} (emptyVal : α) : JsonFile α → α
  | .missing => emptyVal
  | .invalidContent => emptyVal
  | .validContent d => d

/-- `load_tunnels`: `{}` when `tunnels.json` does not exist, otherwise
`load_json` of it. -/
def load_tunnels (f : JsonFile (List (String × TunnelRecord))) : List (String × TunnelRecord) :=
  match f with
  | .missing => []
  | g => load_json [] g

/-- The configuration `ensure_config_dir` writes on first run. -/
def defaultConfig : GlobalConfig := ⟨some "localhost"⟩

/-- `TunnelManager.__init__`: ensure the config dir (writing the default
config when `config.json` is absent), load the config, load the
tunnels. -/
def managerInit (cfgFile : JsonFile GlobalConfig)
    (tunFile : JsonFile (List (String × TunnelRecord))) : MState :=
  let cfg := match cfgFile with
    | .missing => defaultConfig
    | g => load_json ⟨none⟩ g
  ⟨load_tunnels tunFile, cfg⟩

/-! ## Claim theorems -/

/-- C10: for a persisted-state file that is missing or whose content is
not valid JSON, `load_json` returns the empty mapping rather than
raising; consequently manager instantiation with a corrupted
`tunnels.json` silently starts with an empty tunnel registry. -/
theorem corrupt_state_loads_empty (cfgFile : JsonFile GlobalConfig)
    (tunFile : JsonFile (List (String × TunnelRecord)))
    (h : tunFile = .missing ∨ tunFile = .invalidContent) :
    load_json [] tunFile = [] ∧ load_tunnels tunFile = [] ∧
      (managerInit cfgFile tunFile).tunnels = [] := by
  rcases h with h | h <;> subst h <;>
    simp [load_json, load_tunnels, managerInit]

theorem corrupt_state_loads_empty_witness :
    ((JsonFile.invalidContent : JsonFile (List (String × TunnelRecord))) = .missing ∨
      (JsonFile.invalidContent : JsonFile (List (String × TunnelRecord))) = .invalidContent) ∧
    (load_json [] (JsonFile.invalidContent : JsonFile (List (String × TunnelRecord))) = [] ∧
      load_tunnels .invalidContent = [] ∧
      (managerInit (.validContent defaultConfig) .invalidContent).tunnels = []) :=
  ⟨Or.inr rfl, corrupt_state_loads_empty (.validContent defaultConfig) .invalidContent
    (Or.inr rfl)⟩

/-- C8: whenever the computed archive hash disagrees with the checksum
recorded in the manifest for the archive's filename,
`install_portable_node_lts` fails with the checksum-mismatch error and
neither extracts nor records a `bundled_node` entry in the config. -/
theorem install_checksum_mismatch (env : NodeEnv) (version e : String)
    (hv : env.ltsVersion = some version)
    (hm : lookupShasum env.manifestLines (nodeFilename env version) = some e)
    (he : e ≠ "") (hh : env.archiveHash ≠ e) :
    (installPortableNodeLts env).out = .error .checksumMismatch ∧
    InstallEvent.extractArchive ∉ (installPortableNodeLts env).events ∧
    InstallEvent.persistConfig ∉ (installPortableNodeLts env).events ∧
    (installPortableNodeLts env).bundled = none := by
  have hmm : (match lookupShasum env.manifestLines (nodeFilename env version) with
      | some e2 => !(e2 == "") && !(env.archiveHash == e2)
      | none => false) = true := by
    rw [hm]
    simp [he, hh]
  simp [installPortableNodeLts, hv, hmm]

/-- A concrete bootstrapper environment with a tampered archive: the
manifest names hash `abc` for the linux x64 archive, the download
hashes to `fff`. -/
def envBad : NodeEnv :=
  ⟨.linux, "x64", some "v22.0.0",
    ["abc  node-v22.0.0-linux-x64.tar.xz"], "fff", false, true⟩

theorem install_checksum_mismatch_witness :
    (envBad.ltsVersion = some "v22.0.0" ∧
      lookupShasum envBad.manifestLines (nodeFilename envBad "v22.0.0") = some "abc" ∧
      ("abc" : String) ≠ "" ∧ envBad.archiveHash ≠ "abc") ∧
    ((installPortableNodeLts envBad).out = .error .checksumMismatch ∧
      InstallEvent.extractArchive ∉ (installPortableNodeLts envBad).events ∧
      InstallEvent.persistConfig ∉ (installPortableNodeLts envBad).events ∧
      (installPortableNodeLts envBad).bundled = none) :=
  ⟨⟨rfl, by decide, by decide, by decide⟩,
    install_checksum_mismatch envBad "v22.0.0" "abc" rfl (by decide) (by decide) (by decide)⟩

/-- C9 (implicit): when the downloaded manifest has no line ending with
the expected archive filename, `install_portable_node_lts` skips hash
verification entirely: whatever the archive hashes to, no checksum
error is raised, extraction is reached (when not already extracted),
and (when npx is found) the runtime is recorded in the config as a
valid cached runner. -/
theorem install_skips_verification (env : NodeEnv) (version : String)
    (hv : env.ltsVersion = some version)
    (hm : lookupShasum env.manifestLines (nodeFilename env version) = none) :
    (installPortableNodeLts env).out ≠ .error .checksumMismatch ∧
    (env.alreadyExtracted = false →
      InstallEvent.extractArchive ∈ (installPortableNodeLts env).events) ∧
    (env.npxPresentAfterExtract = true →
      (installPortableNodeLts env).out.isOk = true ∧
      InstallEvent.persistConfig ∈ (installPortableNodeLts env).events ∧
      (installPortableNodeLts env).bundled.isSome = true) := by
  have hmm : (match lookupShasum env.manifestLines (nodeFilename env version) with
      | some e2 => !(e2 == "") && !(env.archiveHash == e2)
      | none => false) = false := by
    rw [hm]
  refine ⟨?_, ?_, ?_⟩
  · simp only [installPortableNodeLts, hv, hmm]
    cases hnpx : env.npxPresentAfterExtract <;> simp [hnpx]
  · intro hex
    simp only [installPortableNodeLts, hv, hmm, hex]
    cases hnpx : env.npxPresentAfterExtract <;> simp [hnpx]
  · intro hnpx
    simp [installPortableNodeLts, hv, hmm, hnpx, Except.isOk, Except.toBool]

/-- A concrete bootstrapper environment whose manifest mentions a
different file, so no line matches the expected archive filename. -/
def envNoLine : NodeEnv :=
  ⟨.linux, "x64", some "v22.0.0",
    ["abc  node-v20.0.0-linux-x64.tar.xz"], "fff", false, true⟩

theorem install_skips_verification_witness :
    (envNoLine.ltsVersion = some "v22.0.0" ∧
      lookupShasum envNoLine.manifestLines (nodeFilename envNoLine "v22.0.0") = none) ∧
    ((installPortableNodeLts envNoLine).out ≠ .error .checksumMismatch ∧
      (envNoLine.alreadyExtracted = false →
        InstallEvent.extractArchive ∈ (installPortableNodeLts envNoLine).events) ∧
      (envNoLine.npxPresentAfterExtract = true →
        (installPortableNodeLts envNoLine).out.isOk = true ∧
        InstallEvent.persistConfig ∈ (installPortableNodeLts envNoLine).events ∧
        (installPortableNodeLts envNoLine).bundled.isSome = true)) :=
  ⟨⟨rfl, by decide⟩, install_skips_verification envNoLine "v22.0.0" rfl (by decide)⟩

/-- C3: when the localtunnel child's output contains no URL within the
20-second window, the loop finishes with the URL-timeout error — but,
because that error is raised after the `try` block whose handler is the
only terminate call, the child is NOT killed first.  (The claim and
spec say the child is killed before the error is raised; the in-loop
`except` handler shows that was the intent, and the timeout `raise`
sitting outside the `try` orphans the child.) -/
theorem localtunnel_timeout_leaves_child :
    (runLt 77 [LtRead.outLine "your url is almost ready", LtRead.noLine] []).out
        = .error .ltUrlTimeout ∧
    (runLt 77 [LtRead.outLine "your url is almost ready", LtRead.noLine] []).terminated
        = false ∧
    (runLt 77 [LtRead.procExited] []).terminated = true := by
  refine ⟨by decide, by decide, by decide⟩

/-- C7: a create call aimed at a local port with no listener fails with
the local-service-not-running error, synchronously and with no side
effects (state unchanged, no process spawned, nothing persisted, no
port allocated); the duplicate-name failure has the same no-side-effect
guarantee. -/
theorem create_input_errors_no_side_effects (env : Env) (s : MState) (name : String)
    (lp : Nat) (sub : Option String) (pp : Option Nat) (prov : Option String) :
    ((lookupT s.tunnels name).isSome = false → env.portInUse lp = false →
      (createTunnel env s name lp sub pp prov).out = .error .localServiceNotRunning ∧
      (createTunnel env s name lp sub pp prov).state = s ∧
      (createTunnel env s name lp sub pp prov).events = []) ∧
    ((lookupT s.tunnels name).isSome = true →
      (createTunnel env s name lp sub pp prov).out = .error .duplicateName ∧
      (createTunnel env s name lp sub pp prov).state = s ∧
      (createTunnel env s name lp sub pp prov).events = []) := by
  constructor
  · intro hname hlp
    simp [createTunnel, hname, hlp]
  · intro hname
    simp [createTunnel, hname]

/-- A concrete environment: only local port 3000 has a listener, the
proxy child survives its grace period, npx is available, and the
localtunnel child prints a banner line with no URL before the window
expires. -/
def env1 : Env :=
  ⟨fun p => p == 3000, true, 41, true, [LtRead.outLine "starting tunnel"], 42, "t0"⟩

/-- The empty manager state. -/
def s0 : MState := ⟨[], ⟨some "localhost"⟩⟩

theorem create_input_errors_witness :
    ((lookupT s0.tunnels "api").isSome = false ∧ env1.portInUse 4000 = false) ∧
    ((createTunnel env1 s0 "api" 4000 none none none).out = .error .localServiceNotRunning ∧
      (createTunnel env1 s0 "api" 4000 none none none).state = s0 ∧
      (createTunnel env1 s0 "api" 4000 none none none).events = []) :=
  ⟨⟨by decide, by decide⟩,
    (create_input_errors_no_side_effects env1 s0 "api" 4000 none none none).1
      (by decide) (by decide)⟩

theorem startPublic_events (env : Env) :
    MEvent.termProxy ∉ (startPublicLocaltunnel env).2 ∧
    MEvent.saveTunnelsFile ∉ (startPublicLocaltunnel env).2 := by
  unfold startPublicLocaltunnel
  by_cases h : env.npxAvailable = true
  · simp only [h, if_true, if_pos]
    cases (runLt env.publicPid env.ltReads []).terminated <;> simp
  · simp [h]

/-- C1 counterexample: with the proxy starting fine but the localtunnel
child never printing a URL, `create` propagates the timeout error and
the new tunnel record is NOT persisted — the registry is untouched and
`save_tunnels` is never reached, contrary to the claim that the
operation finishes with the record persisted (public fields empty). -/
theorem create_public_failure_not_persisted :
    (createTunnel env1 s0 "api" 3000 none none (some "localtunnel")).out
        = .error .ltUrlTimeout ∧
    lookupT (createTunnel env1 s0 "api" 3000 none none
        (some "localtunnel")).state.tunnels "api" = none ∧
    (createTunnel env1 s0 "api" 3000 none none (some "localtunnel")).state = s0 ∧
    MEvent.saveTunnelsFile ∉
      (createTunnel env1 s0 "api" 3000 none none (some "localtunnel")).events := by
  refine ⟨by decide, by decide, by decide, by decide⟩

/-- C1 amended: when the local proxy starts and the public-exposure
step then fails, the already-created local tunnel is indeed not rolled
back (the proxy child is spawned and never terminated) and the failure
is surfaced to the caller — but the exception propagates out of
`create_tunnel` before the record is inserted, so the state is
unchanged and nothing is persisted. -/
theorem create_public_failure_behavior (env : Env) (s : MState) (name prov : String)
    (lp p : Nat) (sub : Option String) (e : MError)
    (hname : (lookupT s.tunnels name).isSome = false)
    (hlp : env.portInUse lp = true)
    (hp : p ≠ 0)
    (hproxy : env.proxyOk = true)
    (hpub : (startPublicLocaltunnel env).1 = .error e) :
    (createTunnel env s name lp sub (some p) (some prov)).out = .error e ∧
    (createTunnel env s name lp sub (some p) (some prov)).state = s ∧
    MEvent.spawnProxy ∈ (createTunnel env s name lp sub (some p) (some prov)).events ∧
    MEvent.termProxy ∉ (createTunnel env s name lp sub (some p) (some prov)).events ∧
    MEvent.saveTunnelsFile ∉ (createTunnel env s name lp sub (some p) (some prov)).events := by
  have hports : pyTruthyNat (some p) = true := by simp [pyTruthyNat, hp]
  have hx := startPublic_events env
  cases hsp : startPublicLocaltunnel env with
  | mk o evs =>
    rw [hsp] at hpub hx
    simp only at hpub
    subst hpub
    simp [createTunnel, hname, hlp, hports, hproxy, hsp, hx.1, hx.2]

/-- Like `env1` but with npx unavailable, so the public-exposure step
fails before spawning the helper. -/
def env2 : Env := ⟨fun p => p == 3000, true, 41, false, [], 42, "t0"⟩

theorem create_public_failure_witness :
    ((lookupT s0.tunnels "api").isSome = false ∧ env2.portInUse 3000 = true ∧
      (8100 : Nat) ≠ 0 ∧ env2.proxyOk = true ∧
      (startPublicLocaltunnel env2).1 = .error .npxNotFound) ∧
    ((createTunnel env2 s0 "api" 3000 none (some 8100) (some "localtunnel")).out
        = .error .npxNotFound ∧
      (createTunnel env2 s0 "api" 3000 none (some 8100) (some "localtunnel")).state = s0 ∧
      MEvent.spawnProxy ∈
        (createTunnel env2 s0 "api" 3000 none (some 8100) (some "localtunnel")).events ∧
      MEvent.termProxy ∉
        (createTunnel env2 s0 "api" 3000 none (some 8100) (some "localtunnel")).events ∧
      MEvent.saveTunnelsFile ∉
        (createTunnel env2 s0 "api" 3000 none (some 8100) (some "localtunnel")).events) :=
  ⟨⟨by decide, by decide, by decide, by decide, by decide⟩,
    create_public_failure_behavior env2 s0 "api" "localtunnel" 3000 8100 none .npxNotFound
      (by decide) (by decide) (by decide) (by decide) (by decide)⟩

/-- A plausible persisted record for tunnel `a` on public port 8000. -/
def sampleRecord (n : String) (lp pp : Nat) : TunnelRecord :=
  ⟨n, lp, pp, n, "localhost", "", "", "", "", "t", "active", some 40, none, none, none, 0, none⟩

/-- A state already holding tunnel `a` with public port 8000. -/
def s1 : MState := ⟨[("a", sampleRecord "a" 3000 8000)], ⟨some "localhost"⟩⟩

/-- C2 counterexample: an explicitly supplied `public_port` is never
checked against live records, so a second `create` with `public_port =
8000` succeeds and the registry then holds two live records with the
same `public_port`. -/
theorem create_explicit_port_collision :
    distinctPorts s1.tunnels ∧
    (createTunnel env1 s1 "b" 3000 none (some 8000) none).out.isOk = true ∧
    ((createTunnel env1 s1 "b" 3000 none (some 8000) none).state.tunnels.map
      (fun kv => kv.2.public_port)) = [8000, 8000] := by
  refine ⟨?_, by decide, by decide⟩
  simp [distinctPorts, s1]

theorem findAvailablePort_not_reserved (env : Env) (ts : List (String × TunnelRecord)) (p : Nat)
    (h : findAvailablePort env ts = some p) :
    ∀ kv ∈ ts, kv.2.public_port ≠ p := by
  intro kv hm
  have hp := List.find?_some h
  simp only [Bool.and_eq_true] at hp
  have hall := hp.2
  rw [List.all_eq_true] at hall
  have := hall kv hm
  simpa using this

theorem createTunnel_default_port_state (env : Env) (s : MState) (name : String) (lp : Nat)
    (sub : Option String) (prov : Option String) :
    (createTunnel env s name lp sub none prov).state.tunnels = s.tunnels ∨
    ∃ r : TunnelRecord, (createTunnel env s name lp sub none prov).state.tunnels
        = (name, r) :: s.tunnels ∧ findAvailablePort env s.tunnels = some r.public_port := by
  simp only [createTunnel, pyTruthyNat, Bool.false_eq_true, if_false]
  split
  · exact Or.inl rfl
  · split
    · exact Or.inl rfl
    · split
      · exact Or.inl rfl
      · rename_i publicPort heq
        split
        · exact Or.inl rfl
        · split
          · exact Or.inr ⟨_, rfl, heq⟩
          · split
            · exact Or.inl rfl
            · exact Or.inr ⟨_, rfl, heq⟩

theorem createTunnel_default_preserves_distinct (env : Env) (s : MState) (name : String)
    (lp : Nat) (sub : Option String) (prov : Option String) (h : distinctPorts s.tunnels) :
    distinctPorts (createTunnel env s name lp sub none prov).state.tunnels := by
  rcases createTunnel_default_port_state env s name lp sub prov with hc | ⟨r, hst, hfind⟩
  · rw [hc]; exact h
  · rw [hst]
    refine List.Pairwise.cons ?_ h
    intro kv hkv
    exact (findAvailablePort_not_reserved env s.tunnels r.public_port hfind kv hkv).symm

/-- C2 amended: when `public_port` is left to default allocation,
`create` never produces two live records with the same `public_port`:
any sequence of create calls with `public_port=None` preserves pairwise
distinctness of `public_port` among live records (each allocation skips
ports reserved by live records).  An explicitly supplied `public_port`
is not checked against live records and can collide (see the
counterexample). -/
theorem create_auto_allocation_distinct (env : Env) (s : MState) (reqs : List CreateReq)
    (h : distinctPorts s.tunnels) :
    distinctPorts (runCreates env s reqs).tunnels := by
  induction reqs generalizing s with
  | nil => exact h
  | cons r rest ih =>
    exact ih _
      (createTunnel_default_preserves_distinct env s r.name r.localPort r.subdomainOpt
        r.providerOpt h)

theorem create_auto_allocation_distinct_witness :
    distinctPorts s0.tunnels ∧
    distinctPorts (runCreates env1 s0
      [⟨"a", 3000, none, none⟩, ⟨"b", 3000, none, none⟩]).tunnels :=
  ⟨List.Pairwise.nil,
    create_auto_allocation_distinct env1 s0 [⟨"a", 3000, none, none⟩, ⟨"b", 3000, none, none⟩]
      List.Pairwise.nil⟩

theorem createTunnel_ok_inv (env : Env) (s : MState) (name : String) (lp : Nat)
    (sub : Option String) (pp : Option Nat) (prov : Option String) (r : TunnelRecord)
    (hok : (createTunnel env s name lp sub pp prov).out = .ok r) :
    r.local_port = lp ∧
    r.subdomain = (if pyTruthyStr sub = true then sub.getD name else name) ∧
    (if pyTruthyNat pp = true then pp else findAvailablePort env s.tunnels)
      = some r.public_port := by
  simp only [createTunnel] at hok
  split at hok
  · exact absurd hok (by simp)
  · split at hok
    · exact absurd hok (by simp)
    · split at hok
      · exact absurd hok (by simp)
      · rename_i publicPort heq
        split at hok
        · exact absurd hok (by simp)
        · split at hok
          · injection hok with h2
            subst h2
            exact ⟨rfl, rfl, heq⟩
          · split at hok
            · exact absurd hok (by simp)
            · injection hok with h2
              subst h2
              exact ⟨rfl, rfl, heq⟩

/-- C6: `restart(name)` is the composition of `stop(name)` and `create`
with the previous record's `local_port`, `subdomain`, `public_port` and
`public_provider`; in particular a successful restart preserves
`local_port`, `subdomain` and `public_port` (the same public port is
requested again explicitly). -/
theorem restart_equiv (env : Env) (s : MState) (name : String) :
    restartTunnel env s name = stopThenCreate env s name ∧
    (∀ t : TunnelRecord, lookupT s.tunnels name = some t → t.subdomain ≠ "" →
      t.public_port ≠ 0 → ∀ r : TunnelRecord, (restartTunnel env s name).out = .ok r →
      r.local_port = t.local_port ∧ r.subdomain = t.subdomain ∧
        r.public_port = t.public_port) := by
  constructor
  · cases hlk : lookupT s.tunnels name with
    | none => simp [restartTunnel, stopThenCreate, stopTunnel, hlk]
    | some t => simp [restartTunnel, stopThenCreate, stopTunnel, hlk]
  · intro t hlk hsd hp r hok
    have hout : (restartTunnel env s name).out =
        (createTunnel env (stopTunnel s name).state name t.local_port (some t.subdomain)
          (some t.public_port) t.public_provider).out := by
      simp [restartTunnel, hlk]
    rw [hout] at hok
    obtain ⟨h1, h2, h3⟩ := createTunnel_ok_inv env (stopTunnel s name).state name t.local_port
      (some t.subdomain) (some t.public_port) t.public_provider r hok
    have hsub : pyTruthyStr (some t.subdomain) = true := by simp [pyTruthyStr, hsd]
    have hpt : pyTruthyNat (some t.public_port) = true := by simp [pyTruthyNat, hp]
    refine ⟨h1, ?_, ?_⟩
    · rw [h2, if_pos hsub]
      rfl
    · rw [if_pos hpt] at h3
      have := Option.some.inj h3
      exact this.symm

/-- The record a successful `restart` of tunnel `a` in `s1` produces
under `env1`. -/
def rNew : TunnelRecord :=
  ⟨"a", 3000, 8000, "a", "localhost", "http://a.localhost:8000", "http://127.0.0.1:8000",
    "a.localhost", "curl --resolve a.localhost:8000:127.0.0.1 http://a.localhost:8000", "t0",
    "active", some 41, none, none, none, 0, none⟩

theorem restart_equiv_witness :
    (lookupT s1.tunnels "a" = some (sampleRecord "a" 3000 8000) ∧
      (sampleRecord "a" 3000 8000).subdomain ≠ "" ∧
      (sampleRecord "a" 3000 8000).public_port ≠ 0 ∧
      (restartTunnel env1 s1 "a").out = .ok rNew) ∧
    (rNew.local_port = (sampleRecord "a" 3000 8000).local_port ∧
      rNew.subdomain = (sampleRecord "a" 3000 8000).subdomain ∧
      rNew.public_port = (sampleRecord "a" 3000 8000).public_port) :=
  ⟨⟨by decide, by decide, by decide, by decide⟩,
    (restart_equiv env1 s1 "a").2 (sampleRecord "a" 3000 8000) (by decide) (by decide)
      (by decide) rNew (by decide)⟩

/-- C4: for every Proxy connection and client payload — whatever the
peek outcome (terminator found, EOF without terminator, buffer overrun,
or peek timeout) — the bytes delivered to the target are exactly the
client payload (any peeked prefix is replayed upstream first), and the
target-to-client direction relays its chunks unchanged; the amount
forwarded never depends on what the HTTP classifier concluded. -/
theorem proxy_byte_roundtrip (bs : List Nat) (pc : PeekCase) (chunks tchunks : List (List Nat))
    (hv : validPeek bs pc = true)
    (hc : chunks.all (fun c => !c.isEmpty) = true)
    (hj : chunks.flatten = peekRest bs pc)
    (ht : tchunks.all (fun c => !c.isEmpty) = true) :
    forwardedToTarget bs pc chunks = bs ∧ pipeDelivered tchunks = tchunks.flatten := by
  refine ⟨?_, pipeDelivered_join tchunks ht⟩
  unfold forwardedToTarget
  rw [pipeDelivered_join chunks hc, hj]
  cases pc with
  | peekOk =>
    simp only [validPeek] at hv
    cases hsp : splitTerm4 termBytes bs with
    | none => rw [hsp] at hv; simp at hv
    | some pr =>
      obtain ⟨b, a⟩ := pr
      simp only [peekInitial, peekRest, hsp]
      have hjn := splitTerm4_join termBytes bs b a hsp
      rw [← hjn]
  | eofNoTerm => simp [peekInitial, peekRest]
  | overrun => simp [peekInitial, peekRest]
  | timedOut => simp [peekInitial, peekRest]

theorem proxy_byte_roundtrip_witness :
    (validPeek [71, 1, 2] .overrun = true ∧
      ([[71, 1, 2]] : List (List Nat)).all (fun c => !c.isEmpty) = true ∧
      ([[71, 1, 2]] : List (List Nat)).flatten = peekRest [71, 1, 2] .overrun ∧
      ([[9, 9]] : List (List Nat)).all (fun c => !c.isEmpty) = true) ∧
    (forwardedToTarget [71, 1, 2] .overrun [[71, 1, 2]] = [71, 1, 2] ∧
      pipeDelivered [[9, 9]] = ([[9, 9]] : List (List Nat)).flatten) :=
  ⟨⟨by decide, by decide, by decide, by decide⟩,
    proxy_byte_roundtrip [71, 1, 2] .overrun [[71, 1, 2]] [[9, 9]]
      (by decide) (by decide) (by decide) (by decide)⟩

/-- The bytes `"GET /hook HTTP/1.1\r\nHost: x\r\n\r\n"`. -/
def hookHeadBytes : List Nat := "GET /hook HTTP/1.1\r\nHost: x\r\n\r\n".data.map Char.toNat

/-- The same bytes without the final terminator. -/
def hookHeaderBytes : List Nat := "GET /hook HTTP/1.1\r\nHost: x".data.map Char.toNat

/-- C5: a connection opening with `"GET /hook HTTP/1.1\r\nHost: x\r\n\r\n"`
(arriving within the peek timeout) followed by any body bytes makes the
proxy log a line with method `GET`, path `/hook`, host `x`; a
connection whose bytes never contain `\r\n\r\n` within the peek window
never produces a parsed-HTTP log line. -/
theorem proxy_http_sniffing :
    (∀ (body : List Nat) (u : Bool),
      LogEntry.httpLine "GET" "/hook" "x" ∈ connLogLines (hookHeadBytes ++ body) .peekOk u) ∧
    (∀ (bs : List Nat) (pc : PeekCase) (u : Bool) (m p h : String),
      validPeek bs pc = true → splitTerm4 termBytes bs = none →
      LogEntry.httpLine m p h ∉ connLogLines bs pc u) := by
  constructor
  · intro body u
    have h0 : splitTerm4 termBytes hookHeadBytes = some (hookHeaderBytes, []) := by decide
    have h1 : splitTerm4 termBytes (hookHeadBytes ++ body) = some (hookHeaderBytes, body) := by
      have h2 := splitTerm4_append termBytes hookHeadBytes body hookHeaderBytes [] h0
      simpa using h2
    have h3 : peekInitial (hookHeadBytes ++ body) .peekOk = hookHeaderBytes ++ termBytes := by
      simp [peekInitial, h1]
    have h4 : hookHeaderBytes ++ termBytes = hookHeadBytes := by decide
    have h5 : tryParseHttpRequest hookHeadBytes = some ("GET", "/hook", "x") := by decide
    have h6 : hookHeadBytes.isEmpty = false := by decide
    have h7 : (if ("x" : String) = "" then "-" else "x") = "x" := by decide
    simp only [connLogLines, h3, h4, h6, h5, h7]
    cases u <;> simp
  · intro bs pc u m p h hv hnone hmem
    cases pc with
    | peekOk =>
      simp only [validPeek] at hv
      rw [hnone] at hv
      simp at hv
    | eofNoTerm =>
      have hparse : tryParseHttpRequest bs = none := by
        simp only [tryParseHttpRequest, hnone]
      simp only [connLogLines, peekInitial, hparse] at hmem
      cases u <;> simp at hmem
    | overrun =>
      simp only [connLogLines, peekInitial] at hmem
      cases u <;> simp at hmem
    | timedOut =>
      simp only [connLogLines, peekInitial] at hmem
      cases u <;> simp at hmem

theorem proxy_http_sniffing_witness :
    (LogEntry.httpLine "GET" "/hook" "x" ∈ connLogLines (hookHeadBytes ++ []) .peekOk true) ∧
    (validPeek [65] .timedOut = true ∧ splitTerm4 termBytes [65] = none ∧
      LogEntry.httpLine "GET" "/" "-" ∉ connLogLines [65] .timedOut true) :=
  ⟨proxy_http_sniffing.1 [] true,
    ⟨by decide, by decide,
      proxy_http_sniffing.2 [65] .timedOut true "GET" "/" "-" (by decide) (by decide)⟩⟩
